import Mathlib

/-!
# Fixed-point softmax gradient kernel (`waveflow/kernel_lib/softmax_grad_dfx.cpp`)

A shallow embedding of `WaveSoftmaxGradDfxOp::Compute`, `convert_output` and
`softmax_grad`.  The headers `dyn_fx_pt.h` (types `fxbp`, `DynFxPoint`) and
`dfx_op_base.h` (`get_fxbp`, `partial_in`, `partial_out`) are not part of the
source tree; what the kernel needs from them is modelled from the written
specification and marked as such.

Conventions.
* C++ `int` values are unbounded `Int`/`Nat`; the only width that matters for the
  arithmetic of the kernel is the width of a fixed-point format, and it is
  enforced by explicit saturation (`sat`).
* A `float` value is an exact rational (`ℚ`).
* `DynFxPoint*` arguments of `softmax_grad` are an offset into the three member
  vectors of the kernel object.
* An access outside a vector is the error `Err.outOfBounds`; a loop that has not
  finished when its fuel is spent is `Err.outOfFuel`.
-/

namespace WaveFlow

/-- Modelled from the spec: the tie-break of round-to-nearest is left open by the
specification ("round-half-away-from-zero or round-half-to-even"); both are modelled and
every operation takes the rule as a parameter. -/
inductive RoundMode where
  | halfAway
  | halfEven
deriving DecidableEq, Repr

/-- Modelled from the spec: the Precision Descriptor of `dyn_fx_pt.h`: binary point
(`m_bp`, fractional bits, may be negative), word length (`m_wl`, total bit-width) and the
initialized flag. -/
structure fxbp where
  m_bp : Int
  m_wl : Nat
  m_initialized : Bool
deriving DecidableEq, Repr

/-- Modelled from the spec: the two-argument constructor `fxbp(bp, wl)` of `dyn_fx_pt.h`,
used as `fxbp(14, 16)`, the format with 14 fractional bits in 16 bits. -/
def fxbp.mk2 (bp : Int) (wl : Nat) : fxbp := ⟨bp, wl, true⟩

/-- Modelled from the spec: `derive_product(a, b)`, fractional bits added, width 32. -/
def fxbp.derive_product (a b : fxbp) : fxbp := fxbp.mk2 (a.m_bp + b.m_bp) 32

/-- The test `bp.m_bp == -1 || !bp.m_initialized` of `Compute` (lines 81 and 92). -/
def fxbp.unconfigured (bp : fxbp) : Bool := bp.m_bp == -1 || !bp.m_initialized

/-- Modelled from the spec: a Dynamic Fixed-Point Scalar of `dyn_fx_pt.h`, an integer
mantissa `m_v` with its format. -/
structure DynFxPoint where
  m_v : Int
  m_fxbp : fxbp
deriving DecidableEq, Repr

/-- Modelled from the spec: a default-constructed scalar (`DynFxPoint s, t;`, the new
elements of a resized vector).  Its mantissa is 0; its format is not stated and is never
read, every use in the kernel attaches a format first. -/
instance : Inhabited DynFxPoint := ⟨⟨0, ⟨0, 32, false⟩⟩⟩

/-- Modelled from the spec: round `m / d` to the nearest integer, ties by the rule `r`
(`d` positive). -/
def roundDiv (r : RoundMode) (m : Int) (d : Nat) : Int :=
  let f := m / (d : Int)
  let rem := m % (d : Int)
  if 2 * rem < d then f
  else if (d : Int) < 2 * rem then f + 1
  else match r with
    | .halfAway => if 0 ≤ m then f + 1 else f
    | .halfEven => if f % 2 = 0 then f else f + 1

/-- Modelled from the spec: saturation, the mantissa is clamped to the signed range of `wl`
bits. -/
def sat (wl : Nat) (v : Int) : Int :=
  max (-(2 : Int) ^ (wl - 1)) (min v ((2 : Int) ^ (wl - 1) - 1))

/-- Modelled from the spec: rescaling, the mantissa is shifted by the difference of the
fractional-bit counts; a shift to fewer fractional bits rounds. -/
def rescale (r : RoundMode) (v : Int) (src dst : Int) : Int :=
  if src ≤ dst then v * (2 : Int) ^ (dst - src).toNat
  else roundDiv r v (2 ^ (src - dst).toNat)

/-- Modelled from the spec: `set_fxbp(descriptor)`, attach a format without rescaling the
mantissa. -/
def DynFxPoint.set_fxbp (x : DynFxPoint) (bp : fxbp) : DynFxPoint := ⟨x.m_v, bp⟩

/-- Modelled from the spec: `operator=(DynFxPoint)`, the source is rescaled into the
destination's own format, rounded and saturated at the destination's width. -/
def DynFxPoint.assign (r : RoundMode) (dst src : DynFxPoint) : DynFxPoint :=
  ⟨sat dst.m_fxbp.m_wl (rescale r src.m_v src.m_fxbp.m_bp dst.m_fxbp.m_bp), dst.m_fxbp⟩

/-- Modelled from the spec: `operator=(int)`, a raw integer value is scaled into the
destination's format. -/
def DynFxPoint.assignInt (r : RoundMode) (dst : DynFxPoint) (v : Int) : DynFxPoint :=
  ⟨sat dst.m_fxbp.m_wl (rescale r v 0 dst.m_fxbp.m_bp), dst.m_fxbp⟩

/-- Modelled from the spec: `operator=(float)`, the value times `2^m_bp` is rounded to the
nearest mantissa and saturated. -/
def DynFxPoint.assignFloat (r : RoundMode) (dst : DynFxPoint) (v : ℚ) : DynFxPoint :=
  let q : ℚ := v * (2 : ℚ) ^ dst.m_fxbp.m_bp
  ⟨sat dst.m_fxbp.m_wl (roundDiv r q.num q.den), dst.m_fxbp⟩

/-- Modelled from the spec: `operator*`, the mantissas multiply directly and the format of
the product is `derive_product` of the operands' formats. -/
def DynFxPoint.mul (x y : DynFxPoint) : DynFxPoint :=
  ⟨x.m_v * y.m_v, fxbp.derive_product x.m_fxbp y.m_fxbp⟩

/-- The two mantissas brought to the common (more precise) scale and combined by `op`, the
result at the destination's scale, rounded and saturated. -/
def DynFxPoint.combine (r : RoundMode) (op : Int → Int → Int) (dst x : DynFxPoint) :
    DynFxPoint :=
  let c := max dst.m_fxbp.m_bp x.m_fxbp.m_bp
  let v := op (dst.m_v * (2 : Int) ^ (c - dst.m_fxbp.m_bp).toNat)
    (x.m_v * (2 : Int) ^ (c - x.m_fxbp.m_bp).toNat)
  ⟨sat dst.m_fxbp.m_wl (rescale r v c dst.m_fxbp.m_bp), dst.m_fxbp⟩

/-- Modelled from the spec: `operator+=`, addition at the common scale, the result in the
destination's format. -/
def DynFxPoint.addAssign (r : RoundMode) (dst x : DynFxPoint) : DynFxPoint :=
  DynFxPoint.combine r (fun u v => u + v) dst x

/-- Modelled from the spec: `operator-=`, subtraction at the common scale, the result in the
destination's format. -/
def DynFxPoint.subAssign (r : RoundMode) (dst x : DynFxPoint) : DynFxPoint :=
  DynFxPoint.combine r (fun u v => u - v) dst x

/-- Modelled from the spec: `to_fp()`, the exact reconstruction mantissa divided by
`2^m_bp`. -/
def DynFxPoint.to_fp (x : DynFxPoint) : ℚ := (x.m_v : ℚ) / (2 : ℚ) ^ x.m_fxbp.m_bp

/-- The `typedef std::vector<DynFxPoint> DFXVector` of line 46. -/
abbrev DFXVector := List DynFxPoint

/-- Modelled from the spec: `partial_in(descriptor, out_sequence, in_buffer)`, every element
is a scalar of the given format assigned the floating value. -/
def partial_in (r : RoundMode) (bp : fxbp) (flat_arr : List ℚ) : DFXVector :=
  flat_arr.map (fun v => ((default : DynFxPoint).set_fxbp bp).assignFloat r v)

/-- Modelled from the spec: `partial_out(descriptor, out_buffer, in_sequence)`, every scalar
is expressed in `descriptor` and the quantized value is reconstructed. -/
def partial_out (r : RoundMode) (bp : fxbp) (m_out : DFXVector) : List ℚ :=
  m_out.map (fun x => (((default : DynFxPoint).set_fxbp bp).assign r x).to_fp)

/-- The ways an evaluation of the model can fail to return a result. -/
inductive Err where
  | outOfBounds
  | outOfFuel
deriving DecidableEq, Repr

/-- The member vectors of the kernel object (lines 100-102). -/
structure WaveSoftmaxGradDfxOp where
  m_mm_a_dfx : DFXVector
  m_mm_g_dfx : DFXVector
  m_mm_z_dfx : DFXVector
deriving DecidableEq, Repr

/-- A read `p[j]` through a pointer into a vector. -/
def rd (v : DFXVector) (j : Nat) : Except Err DynFxPoint :=
  match v[j]? with
  | some x => .ok x
  | none => .error .outOfBounds

/-- Lines 106-111: `conv_out[i] = m_out[i].to_fp()` for every `i`. -/
def convert_output (m_out : DFXVector) : List ℚ := m_out.map DynFxPoint.to_fp

/-- `std::vector::resize`: the first `n` elements are kept, missing ones are default
constructed. -/
def resize (v : DFXVector) (n : Nat) : DFXVector :=
  v.take n ++ List.replicate (n - v.length) default

/-- Lines 116-119: the accumulator `s` with the format `(a_bp.m_bp + g_bp.m_bp, 32)`, set
to 0. -/
def softmax_grad_init (r : RoundMode) (a_bp g_bp : fxbp) : DynFxPoint :=
  ((default : DynFxPoint).set_fxbp (fxbp.mk2 (a_bp.m_bp + g_bp.m_bp) 32)).assignInt r 0

/-- Lines 121-122: `for (i = 0; i < n; i++) s += a[i] * g[i];` with `a`, `g` at offset
`off` of the member vectors. -/
def softmax_grad_acc (r : RoundMode) (self : WaveSoftmaxGradDfxOp) (off : Nat)
    (a_bp g_bp : fxbp) (n : Nat) : Except Err DynFxPoint :=
  (List.range n).foldlM (fun s i => do
    let ai ← rd self.m_mm_a_dfx (off + i)
    let gi ← rd self.m_mm_g_dfx (off + i)
    pure (s.addAssign r (ai.mul gi))) (softmax_grad_init r a_bp g_bp)

/-- Lines 124-125: `t.set_fxbp(g_bp); t = s;`. -/
def softmax_grad_t (r : RoundMode) (g_bp : fxbp) (s : DynFxPoint) : DynFxPoint :=
  ((default : DynFxPoint).set_fxbp g_bp).assign r s

/-- Lines 129-130: `s = g[i] * a[i]; s -= t * a[i];`. -/
def softmax_grad_diff (r : RoundMode) (s t ai gi : DynFxPoint) : DynFxPoint :=
  (s.assign r (gi.mul ai)).subAssign r (t.mul ai)

/-- Lines 127-132: one turn of the second loop, on the accumulator and the kernel object. -/
def softmax_grad_step (r : RoundMode) (off : Nat) (g_bp : fxbp) (t : DynFxPoint)
    (st : DynFxPoint × WaveSoftmaxGradDfxOp) (i : Nat) :
    Except Err (DynFxPoint × WaveSoftmaxGradDfxOp) := do
  let zi ← rd st.2.m_mm_z_dfx (off + i)
  let zi := zi.set_fxbp g_bp
  let gi ← rd st.2.m_mm_g_dfx (off + i)
  let ai ← rd st.2.m_mm_a_dfx (off + i)
  let s := softmax_grad_diff r st.1 t ai gi
  pure (s, ⟨st.2.m_mm_a_dfx, st.2.m_mm_g_dfx, st.2.m_mm_z_dfx.set (off + i) (zi.assign r s)⟩)

/-- Lines 113-133: `softmax_grad(a, a_bp, g, g_bp, z, n)` with the three pointers at offset
`off` of the member vectors. -/
def softmax_grad (r : RoundMode) (self : WaveSoftmaxGradDfxOp) (off : Nat)
    (a_bp g_bp : fxbp) (n : Nat) : Except Err WaveSoftmaxGradDfxOp := do
  let s ← softmax_grad_acc r self off a_bp g_bp n
  let t := softmax_grad_t r g_bp s
  let st ← (List.range n).foldlM (softmax_grad_step r off g_bp t) (s, self)
  pure st.2

/-- Lines 87-89: `for (int i = 0; i < a_m.size(); i += n) softmax_grad(.. + i, ..)`, one
unit of fuel per evaluation of the loop condition. -/
def Compute_rows (r : RoundMode) (a_bp g_bp : fxbp) (n size : Nat) :
    Nat → Nat → WaveSoftmaxGradDfxOp → Except Err WaveSoftmaxGradDfxOp
  | 0, _, _ => .error .outOfFuel
  | fuel + 1, i, self =>
    if i < size then do
      let self ← softmax_grad r self i a_bp g_bp n
      Compute_rows r a_bp g_bp n size fuel (i + n) self
    else pure self

/-- Lines 80-82: the format of the first input. -/
def Compute_a_bp (get_fxbp : Bool → Nat → fxbp) : fxbp :=
  let a_bp := get_fxbp true 0
  if a_bp.m_bp == -1 || !a_bp.m_initialized then fxbp.mk2 14 16 else a_bp

/-- Lines 76-89: the vectors are resized, the inputs converted and the rows processed; the
result is the kernel object after the row loop.  `get_fxbp` (of `dfx_op_base.h`) is a
parameter, `n` is the size of the last dimension and `a_m`, `g_m` are the flat inputs. -/
def Compute_fixed (r : RoundMode) (get_fxbp : Bool → Nat → fxbp) (n : Nat)
    (self : WaveSoftmaxGradDfxOp) (a_m g_m : List ℚ) : Except Err WaveSoftmaxGradDfxOp :=
  let a_bp := Compute_a_bp get_fxbp
  let a := partial_in r a_bp a_m
  let g_bp := get_fxbp true 1
  let g := partial_in r g_bp g_m
  let z := resize self.m_mm_z_dfx a_m.length
  Compute_rows r a_bp g_bp n a_m.length (a_m.length + 1) 0 ⟨a, g, z⟩

/-- Lines 58-96: `Compute`; the result is the output buffer `z_m`. -/
def Compute (r : RoundMode) (get_fxbp : Bool → Nat → fxbp) (n : Nat)
    (self : WaveSoftmaxGradDfxOp) (a_m g_m : List ℚ) : Except Err (List ℚ) := do
  let self ← Compute_fixed r get_fxbp n self a_m g_m
  let z_bp := get_fxbp false 0
  if z_bp.m_bp == -1 || !z_bp.m_initialized then
    pure (convert_output self.m_mm_z_dfx)
  else
    pure (partial_out r z_bp self.m_mm_z_dfx)

/-- The exact dot product of the mantissas of the first `k` elements of the row at offset
`off`. -/
def mantissa_dot (a g : DFXVector) (off : Nat) : Nat → Int
  | 0 => 0
  | k + 1 => mantissa_dot a g off k
      + (a.getD (off + k) default).m_v * (g.getD (off + k) default).m_v

/-- The signed 32-bit range of the accumulator. -/
def in_acc_range (v : Int) : Prop := -(2 : Int) ^ 31 ≤ v ∧ v ≤ (2 : Int) ^ 31 - 1

instance (v : Int) : Decidable (in_acc_range v) := by unfold in_acc_range; infer_instance

/-- The value stored in `z[i]` by lines 128-131, from `t` and the elements `a[i]`, `g[i]`. -/
def softmax_grad_elem (r : RoundMode) (a_bp g_bp : fxbp) (t ai gi : DynFxPoint) : DynFxPoint :=
  ((default : DynFxPoint).set_fxbp g_bp).assign r
    (softmax_grad_diff r (softmax_grad_init r a_bp g_bp) t ai gi)

instance {α : Type} [DecidableEq α] : DecidableEq (Except Err α) := fun x y =>
  match x, y with
  | .ok a, .ok b => if h : a = b then isTrue (by rw [h]) else isFalse (fun e => h (by cases e; rfl))
  | .error a, .error b =>
    if h : a = b then isTrue (by rw [h]) else isFalse (fun e => h (by cases e; rfl))
  | .ok _, .error _ => isFalse (fun e => by cases e)
  | .error _, .ok _ => isFalse (fun e => by cases e)

/-- The reading of step 3 in the specification: each of the two products is rescaled into
`g`'s format and the subtraction is made on the two rescaled mantissas. -/
def spec_rescale_then_subtract (r : RoundMode) (g_bp : fxbp) (t ai gi : DynFxPoint) : Int :=
  (((default : DynFxPoint).set_fxbp g_bp).assign r (gi.mul ai)).m_v
    - (((default : DynFxPoint).set_fxbp g_bp).assign r (t.mul ai)).m_v

/-- Example row for C2: `a = [5/8, 1/8]` with 3 fractional bits, `g = [1, -13]` with none. -/
def ex_c2 : WaveSoftmaxGradDfxOp :=
  ⟨[⟨5, fxbp.mk2 3 16⟩, ⟨1, fxbp.mk2 3 16⟩], [⟨1, fxbp.mk2 0 16⟩, ⟨-13, fxbp.mk2 0 16⟩],
    [default, default]⟩

/-- The descriptor of an unconfigured slot: sentinel `m_bp = -1`, not initialized (the
width of the sentinel is not fixed by the specification, 32 is taken). -/
def ex_unset : fxbp := ⟨-1, 32, false⟩

/-- No slot is configured. -/
def ex_cfg_none : Bool → Nat → fxbp := fun _ _ => ex_unset

/-- Both inputs at 14 fractional bits in 16 bits, the output slot not configured. -/
def ex_cfg_14_16 : Bool → Nat → fxbp :=
  fun is_input _ => if is_input then fxbp.mk2 14 16 else ex_unset

/-- The first input at 14 fractional bits in 16 bits, the second at 14 fractional bits in 32
bits, the output slot not configured. -/
def ex_cfg_g32 : Bool → Nat → fxbp :=
  fun is_input i =>
    if is_input then (if i = 0 then fxbp.mk2 14 16 else fxbp.mk2 14 32) else ex_unset

/-- A kernel object before its first invocation. -/
def ex_fresh : WaveSoftmaxGradDfxOp := ⟨[], [], []⟩

/-- The first input configured at 12 fractional bits in 16 bits, nothing else configured. -/
def ex_cfg_a12 : Bool → Nat → fxbp :=
  fun is_input i => if is_input && i == 0 then fxbp.mk2 12 16 else ex_unset

/-! ## Arithmetic of the fixed-point model -/

theorem sat_eq_self (wl : Nat) (v : Int) (h1 : -(2 : Int) ^ (wl - 1) ≤ v)
    (h2 : v ≤ (2 : Int) ^ (wl - 1) - 1) : sat wl v = v := by
  unfold sat
  rw [min_eq_left h2, max_eq_right h1]

theorem sat_zero (wl : Nat) : sat wl 0 = 0 := by
  apply sat_eq_self
  · have : (0 : Int) < 2 ^ (wl - 1) := by positivity
    omega
  · have : (0 : Int) < 2 ^ (wl - 1) := by positivity
    omega

theorem sat_lower (wl : Nat) (v : Int) : -(2 : Int) ^ (wl - 1) ≤ sat wl v := by
  unfold sat; exact le_max_left _ _

theorem sat_upper (wl : Nat) (v : Int) : sat wl v ≤ (2 : Int) ^ (wl - 1) - 1 := by
  unfold sat
  have : (0 : Int) < 2 ^ (wl - 1) := by positivity
  apply max_le
  · omega
  · exact min_le_right _ _

theorem rescale_self (r : RoundMode) (v b : Int) : rescale r v b b = v := by
  simp [rescale]

theorem rd_ok (v : DFXVector) (j : Nat) (h : j < v.length) :
    rd v j = .ok (v.getD j default) := by
  simp [rd, List.getD, List.getElem?_eq_getElem h]

theorem rd_err (v : DFXVector) (j : Nat) (h : v.length ≤ j) :
    rd v j = .error .outOfBounds := by
  simp [rd, List.getElem?_eq_none h]

theorem combine_same_bp (r : RoundMode) (op : Int → Int → Int) (dst x : DynFxPoint)
    (h : x.m_fxbp.m_bp = dst.m_fxbp.m_bp) :
    DynFxPoint.combine r op dst x = ⟨sat dst.m_fxbp.m_wl (op dst.m_v x.m_v), dst.m_fxbp⟩ := by
  simp [DynFxPoint.combine, h, rescale_self]

theorem sat32_eq_self (v : Int) (h : in_acc_range v) : sat 32 v = v :=
  sat_eq_self 32 v h.1 h.2

theorem softmax_grad_init_eq (r : RoundMode) (a_bp g_bp : fxbp) :
    softmax_grad_init r a_bp g_bp = ⟨0, fxbp.mk2 (a_bp.m_bp + g_bp.m_bp) 32⟩ := by
  simp [softmax_grad_init, DynFxPoint.assignInt, DynFxPoint.set_fxbp, rescale, roundDiv,
    sat_zero]

theorem foldlM_range_succ {α : Type} (f : α → Nat → Except Err α) (init : α) (n : Nat) :
    (List.range (n + 1)).foldlM f init
      = (List.range n).foldlM f init >>= fun s => f s n := by
  rw [List.range_succ, List.foldlM_append]
  congr 1
  funext s
  simp [List.foldlM]

theorem softmax_grad_acc_exact (r : RoundMode) (self : WaveSoftmaxGradDfxOp) (off : Nat)
    (a_bp g_bp : fxbp) (n : Nat)
    (ha : off + n ≤ self.m_mm_a_dfx.length) (hg : off + n ≤ self.m_mm_g_dfx.length)
    (hfmt : ∀ i, i < n → (self.m_mm_a_dfx.getD (off + i) default).m_fxbp.m_bp
      + (self.m_mm_g_dfx.getD (off + i) default).m_fxbp.m_bp = a_bp.m_bp + g_bp.m_bp)
    (hrange : ∀ k, k ≤ n → in_acc_range (mantissa_dot self.m_mm_a_dfx self.m_mm_g_dfx off k)) :
    softmax_grad_acc r self off a_bp g_bp n
      = .ok ⟨mantissa_dot self.m_mm_a_dfx self.m_mm_g_dfx off n,
          fxbp.mk2 (a_bp.m_bp + g_bp.m_bp) 32⟩ := by
  unfold softmax_grad_acc
  induction n with
  | zero => simp [softmax_grad_init_eq, mantissa_dot, pure, Except.pure]
  | succ n ih =>
    rw [foldlM_range_succ, ih (by omega) (by omega) (fun i hi => hfmt i (by omega))
      (fun k hk => hrange k (by omega))]
    have h := hrange (n + 1) le_rfl
    simp only [mantissa_dot] at h
    simp only [bind, Except.bind, rd_ok _ _ (show off + n < self.m_mm_a_dfx.length by omega),
      rd_ok _ _ (show off + n < self.m_mm_g_dfx.length by omega), pure, Except.pure,
      DynFxPoint.addAssign]
    rw [combine_same_bp]
    · show Except.ok (DynFxPoint.mk (sat 32 _) _) = _
      rw [show ((self.m_mm_a_dfx.getD (off + n) default).mul
        (self.m_mm_g_dfx.getD (off + n) default)).m_v
          = (self.m_mm_a_dfx.getD (off + n) default).m_v
            * (self.m_mm_g_dfx.getD (off + n) default).m_v from rfl, sat32_eq_self _ h]
      rfl
    · simpa [DynFxPoint.mul, fxbp.derive_product, fxbp.mk2] using hfmt n (by omega)

theorem softmax_grad_diff_fmt (r : RoundMode) (s t ai gi : DynFxPoint) :
    (softmax_grad_diff r s t ai gi).m_fxbp = s.m_fxbp := rfl

theorem softmax_grad_diff_congr (r : RoundMode) (s s' t ai gi : DynFxPoint)
    (h : s.m_fxbp = s'.m_fxbp) :
    softmax_grad_diff r s t ai gi = softmax_grad_diff r s' t ai gi := by
  simp [softmax_grad_diff, DynFxPoint.assign, DynFxPoint.subAssign, DynFxPoint.combine, h]

theorem softmax_grad_step_ok (r : RoundMode) (off : Nat) (a_bp g_bp : fxbp)
    (t s : DynFxPoint) (a g z : DFXVector) (i : Nat)
    (hs : s.m_fxbp = (softmax_grad_init r a_bp g_bp).m_fxbp)
    (ha : off + i < a.length) (hg : off + i < g.length) (hz : off + i < z.length) :
    softmax_grad_step r off g_bp t (s, ⟨a, g, z⟩) i
      = .ok (softmax_grad_diff r s t (a.getD (off + i) default) (g.getD (off + i) default),
          ⟨a, g, z.set (off + i)
            (softmax_grad_elem r a_bp g_bp t (a.getD (off + i) default)
              (g.getD (off + i) default))⟩) := by
  simp only [softmax_grad_step, rd_ok _ _ ha, rd_ok _ _ hg, rd_ok _ _ hz, bind, Except.bind,
    pure, Except.pure, softmax_grad_elem]
  rw [softmax_grad_diff_congr r s _ t _ _ hs]
  rfl

theorem softmax_grad_loop2 (r : RoundMode) (off : Nat) (a_bp g_bp : fxbp) (t s : DynFxPoint)
    (a g z : DFXVector) (n : Nat)
    (hs : s.m_fxbp = (softmax_grad_init r a_bp g_bp).m_fxbp)
    (ha : off + n ≤ a.length) (hg : off + n ≤ g.length) (hz : off + n ≤ z.length) :
    ∃ s' z', (List.range n).foldlM (softmax_grad_step r off g_bp t) (s, ⟨a, g, z⟩)
        = .ok (s', ⟨a, g, z'⟩)
      ∧ s'.m_fxbp = s.m_fxbp ∧ z'.length = z.length
      ∧ (∀ j, (j < off ∨ off + n ≤ j) → z'[j]? = z[j]?)
      ∧ (∀ i, i < n → z'[off + i]? = some (softmax_grad_elem r a_bp g_bp t
          (a.getD (off + i) default) (g.getD (off + i) default))) := by
  induction n with
  | zero =>
    exact ⟨s, z, by simp [pure, Except.pure], rfl, rfl, fun _ _ => rfl, fun i hi => by omega⟩
  | succ n ih =>
    obtain ⟨s1, z1, h1, hs1, hl1, hout1, hin1⟩ := ih (by omega) (by omega) (by omega)
    rw [foldlM_range_succ, h1]
    simp only [bind, Except.bind]
    rw [softmax_grad_step_ok r off a_bp g_bp t s1 a g z1 n (hs1.trans hs) (by omega)
      (by omega) (by omega)]
    refine ⟨_, _, rfl, ?_, ?_, ?_, ?_⟩
    · rw [softmax_grad_diff_fmt, hs1]
    · simp [hl1]
    · intro j hj
      rw [List.getElem?_set_ne (by omega)]
      exact hout1 j (by omega)
    · intro i hi
      by_cases hin : i = n
      · subst hin
        rw [List.getElem?_set_eq_of_lt _ (by omega)]
      · rw [List.getElem?_set_ne (by omega)]
        exact hin1 i (by omega)

theorem softmax_grad_acc_total (r : RoundMode) (self : WaveSoftmaxGradDfxOp) (off : Nat)
    (a_bp g_bp : fxbp) (n : Nat)
    (ha : off + n ≤ self.m_mm_a_dfx.length) (hg : off + n ≤ self.m_mm_g_dfx.length) :
    ∃ s, softmax_grad_acc r self off a_bp g_bp n = .ok s
      ∧ s.m_fxbp = (softmax_grad_init r a_bp g_bp).m_fxbp := by
  unfold softmax_grad_acc
  induction n with
  | zero => exact ⟨_, by simp [pure, Except.pure], rfl⟩
  | succ n ih =>
    obtain ⟨s, h, hf⟩ := ih (by omega) (by omega)
    rw [foldlM_range_succ, h]
    simp only [bind, Except.bind, rd_ok _ _ (show off + n < self.m_mm_a_dfx.length by omega),
      rd_ok _ _ (show off + n < self.m_mm_g_dfx.length by omega), pure, Except.pure]
    exact ⟨_, rfl, hf⟩

theorem softmax_grad_spec (r : RoundMode) (off : Nat) (a_bp g_bp : fxbp) (a g z : DFXVector)
    (n : Nat) (ha : off + n ≤ a.length) (hg : off + n ≤ g.length) (hz : off + n ≤ z.length) :
    ∃ s z', softmax_grad_acc r ⟨a, g, z⟩ off a_bp g_bp n = .ok s
      ∧ softmax_grad r ⟨a, g, z⟩ off a_bp g_bp n = .ok ⟨a, g, z'⟩
      ∧ z'.length = z.length
      ∧ (∀ j, (j < off ∨ off + n ≤ j) → z'[j]? = z[j]?)
      ∧ (∀ i, i < n → z'[off + i]? = some (softmax_grad_elem r a_bp g_bp
          (softmax_grad_t r g_bp s) (a.getD (off + i) default) (g.getD (off + i) default))) := by
  obtain ⟨s, hacc, hf⟩ := softmax_grad_acc_total r ⟨a, g, z⟩ off a_bp g_bp n ha hg
  obtain ⟨s', z', h2, -, hl, hout, hin⟩ :=
    softmax_grad_loop2 r off a_bp g_bp (softmax_grad_t r g_bp s) s a g z n hf ha hg hz
  refine ⟨s, z', hacc, ?_, hl, hout, hin⟩
  unfold softmax_grad
  rw [hacc]
  simp only [bind, Except.bind]
  rw [h2]
  rfl

theorem Compute_rows_spec (r : RoundMode) (a_bp g_bp : fxbp) (n k : Nat) (hn : 0 < n)
    (a g : DFXVector) (ha : a.length = k * n) (hg : g.length = k * n) :
    ∀ (d j : Nat) (z : DFXVector) (fuel : Nat), j + d = k → z.length = k * n → d < fuel →
      ∃ z', Compute_rows r a_bp g_bp n (k * n) fuel (j * n) ⟨a, g, z⟩ = .ok ⟨a, g, z'⟩
        ∧ z'.length = z.length
        ∧ (∀ x, x < j * n → z'[x]? = z[x]?)
        ∧ (∀ row, j ≤ row → row < k → ∀ i, i < n →
            ∃ s, softmax_grad_acc r ⟨a, g, z⟩ (row * n) a_bp g_bp n = .ok s
              ∧ z'[row * n + i]? = some (softmax_grad_elem r a_bp g_bp
                  (softmax_grad_t r g_bp s) (a.getD (row * n + i) default)
                  (g.getD (row * n + i) default))) := by
  intro d
  induction d with
  | zero =>
    intro j z fuel hj hz hf
    obtain ⟨f, rfl⟩ : ∃ f, fuel = f + 1 := ⟨fuel - 1, by omega⟩
    have hjk : j = k := by omega
    subst hjk
    refine ⟨z, by simp [Compute_rows, pure, Except.pure], rfl, fun _ _ => rfl, ?_⟩
    intro row h1 h2
    omega
  | succ d ih =>
    intro j z fuel hj hz hf
    obtain ⟨f, rfl⟩ : ∃ f, fuel = f + 1 := ⟨fuel - 1, by omega⟩
    have hlt : j * n < k * n := Nat.mul_lt_mul_of_pos_right (by omega) hn
    have hsucc : j * n + n = (j + 1) * n := by ring
    have hle : (j + 1) * n ≤ k * n := Nat.mul_le_mul_right n (by omega)
    obtain ⟨s, z1, hacc, hcall, hl1, hout1, hin1⟩ :=
      softmax_grad_spec r (j * n) a_bp g_bp a g z n (by omega) (by omega) (by omega)
    obtain ⟨z2, hrest, hl2, hout2, hin2⟩ := ih (j + 1) z1 f (by omega) (by omega) (by omega)
    refine ⟨z2, ?_, by omega, ?_, ?_⟩
    · simp only [Compute_rows, hlt, if_true, hcall, bind, Except.bind, hsucc]
      exact hrest
    · intro x hx
      rw [hout2 x (by omega), hout1 x (Or.inl hx)]
    · intro row h1 h2 i hi
      by_cases hrow : row = j
      · subst hrow
        refine ⟨s, hacc, ?_⟩
        rw [hout2 (row * n + i) (by omega)]
        exact hin1 i hi
      · exact hin2 row (by omega) h2 i hi

theorem softmax_grad_diff_exact (r : RoundMode) (a_bp g_bp : fxbp) (s t ai gi : DynFxPoint)
    (hs : s.m_fxbp = fxbp.mk2 (a_bp.m_bp + g_bp.m_bp) 32)
    (ht : t.m_fxbp.m_bp = g_bp.m_bp) (hai : ai.m_fxbp.m_bp = a_bp.m_bp)
    (hgi : gi.m_fxbp.m_bp = g_bp.m_bp) :
    softmax_grad_diff r s t ai gi
      = ⟨sat 32 (sat 32 (gi.m_v * ai.m_v) - t.m_v * ai.m_v),
          fxbp.mk2 (a_bp.m_bp + g_bp.m_bp) 32⟩ := by
  unfold softmax_grad_diff DynFxPoint.subAssign
  rw [combine_same_bp]
  · simp only [DynFxPoint.assign, DynFxPoint.mul, fxbp.derive_product, fxbp.mk2, hs, hai, hgi,
      ht, add_comm g_bp.m_bp a_bp.m_bp, rescale_self]
  · simp [DynFxPoint.assign, DynFxPoint.mul, fxbp.derive_product, fxbp.mk2, hs, hai, ht,
      add_comm]

theorem softmax_grad_elem_eq (r : RoundMode) (a_bp g_bp : fxbp) (t ai gi : DynFxPoint)
    (ht : t.m_fxbp.m_bp = g_bp.m_bp) (hai : ai.m_fxbp.m_bp = a_bp.m_bp)
    (hgi : gi.m_fxbp.m_bp = g_bp.m_bp) :
    softmax_grad_elem r a_bp g_bp t ai gi
      = ⟨sat g_bp.m_wl (rescale r (sat 32 (sat 32 (gi.m_v * ai.m_v) - t.m_v * ai.m_v))
          (a_bp.m_bp + g_bp.m_bp) g_bp.m_bp), g_bp⟩ := by
  unfold softmax_grad_elem
  rw [softmax_grad_diff_exact r a_bp g_bp _ t ai gi (by rw [softmax_grad_init_eq]) ht hai hgi]
  rfl

theorem softmax_grad_eq_map (r : RoundMode) (self : WaveSoftmaxGradDfxOp) (off : Nat)
    (a_bp g_bp : fxbp) (n : Nat) (s : DynFxPoint)
    (h : softmax_grad_acc r self off a_bp g_bp n = .ok s) :
    softmax_grad r self off a_bp g_bp n
      = ((List.range n).foldlM (softmax_grad_step r off g_bp (softmax_grad_t r g_bp s))
          (s, self)).map Prod.snd := by
  unfold softmax_grad
  rw [h]
  simp only [bind, Except.bind]
  cases (List.range n).foldlM (softmax_grad_step r off g_bp (softmax_grad_t r g_bp s))
    (s, self) <;> rfl

theorem rd_ok_lt (v : DFXVector) (j : Nat) (x : DynFxPoint) (h : rd v j = .ok x) :
    j < v.length := by
  by_contra hlt
  rw [rd_err v j (by omega)] at h
  cases h

theorem bind_eq_ok {α β : Type} (x : Except Err α) (f : α → Except Err β) (b : β)
    (h : (x >>= f) = .ok b) : ∃ a, x = .ok a ∧ f a = .ok b := by
  cases x with
  | error e => cases h
  | ok a => exact ⟨a, rfl, h⟩

theorem softmax_grad_step_frame (r : RoundMode) (off : Nat) (g_bp : fxbp) (t : DynFxPoint)
    (st st' : DynFxPoint × WaveSoftmaxGradDfxOp) (i : Nat)
    (h : softmax_grad_step r off g_bp t st i = .ok st') :
    st'.2.m_mm_a_dfx = st.2.m_mm_a_dfx ∧ st'.2.m_mm_g_dfx = st.2.m_mm_g_dfx
      ∧ st'.2.m_mm_z_dfx.length = st.2.m_mm_z_dfx.length
      ∧ off + i < st.2.m_mm_a_dfx.length ∧ off + i < st.2.m_mm_g_dfx.length
      ∧ off + i < st.2.m_mm_z_dfx.length
      ∧ ∀ j, j ≠ off + i → st'.2.m_mm_z_dfx[j]? = st.2.m_mm_z_dfx[j]? := by
  unfold softmax_grad_step at h
  obtain ⟨zi, hzi, h⟩ := bind_eq_ok _ _ _ h
  obtain ⟨gi, hgi, h⟩ := bind_eq_ok _ _ _ h
  obtain ⟨ai, hai, h⟩ := bind_eq_ok _ _ _ h
  have h' := Except.ok.inj h
  subst h'
  refine ⟨rfl, rfl, by simp, rd_ok_lt _ _ _ hai, rd_ok_lt _ _ _ hgi, rd_ok_lt _ _ _ hzi, ?_⟩
  intro j hj
  exact List.getElem?_set_ne (Ne.symm hj)

theorem softmax_grad_loop2_frame (r : RoundMode) (off : Nat) (g_bp : fxbp) (t : DynFxPoint)
    (init : DynFxPoint × WaveSoftmaxGradDfxOp) (n : Nat) :
    ∀ res, (List.range n).foldlM (softmax_grad_step r off g_bp t) init = .ok res →
      res.2.m_mm_a_dfx = init.2.m_mm_a_dfx ∧ res.2.m_mm_g_dfx = init.2.m_mm_g_dfx
        ∧ res.2.m_mm_z_dfx.length = init.2.m_mm_z_dfx.length
        ∧ (∀ i, i < n → off + i < init.2.m_mm_a_dfx.length
            ∧ off + i < init.2.m_mm_g_dfx.length ∧ off + i < init.2.m_mm_z_dfx.length)
        ∧ ∀ j, (j < off ∨ off + n ≤ j) → res.2.m_mm_z_dfx[j]? = init.2.m_mm_z_dfx[j]? := by
  induction n with
  | zero =>
    intro res h
    have h' : init = res := by simpa [pure, Except.pure] using h
    subst h'
    exact ⟨rfl, rfl, rfl, fun i hi => by omega, fun _ _ => rfl⟩
  | succ n ih =>
    intro res h
    rw [foldlM_range_succ] at h
    obtain ⟨mid, hmid, hstep⟩ := bind_eq_ok _ _ _ h
    obtain ⟨ha, hg, hl, hb, hout⟩ := ih mid hmid
    obtain ⟨ha', hg', hl', hba, hbg, hbz, hout'⟩ :=
      softmax_grad_step_frame r off g_bp t mid res n hstep
    refine ⟨ha'.trans ha, hg'.trans hg, hl'.trans hl, ?_, ?_⟩
    · intro i hi
      by_cases hin : i = n
      · subst hin
        rw [← ha, ← hg, ← hl]
        exact ⟨hba, hbg, hbz⟩
      · exact hb i (by omega)
    · intro j hj
      rw [hout' j (by omega)]
      exact hout j (by omega)

theorem softmax_grad_acc_inbounds (r : RoundMode) (self : WaveSoftmaxGradDfxOp) (off : Nat)
    (a_bp g_bp : fxbp) (n : Nat) :
    ∀ s, softmax_grad_acc r self off a_bp g_bp n = .ok s →
      ∀ i, i < n → off + i < self.m_mm_a_dfx.length ∧ off + i < self.m_mm_g_dfx.length := by
  unfold softmax_grad_acc
  induction n with
  | zero => intro s _ i hi; omega
  | succ n ih =>
    intro s h i hi
    rw [foldlM_range_succ] at h
    obtain ⟨mid, hmid, hstep⟩ := bind_eq_ok _ _ _ h
    by_cases hin : i = n
    · subst hin
      obtain ⟨ai, hai, hstep⟩ := bind_eq_ok _ _ _ hstep
      obtain ⟨gi, hgi, -⟩ := bind_eq_ok _ _ _ hstep
      exact ⟨rd_ok_lt _ _ _ hai, rd_ok_lt _ _ _ hgi⟩
    · exact ih mid hmid i (by omega)

theorem softmax_grad_frame (r : RoundMode) (st st' : WaveSoftmaxGradDfxOp) (off : Nat)
    (a_bp g_bp : fxbp) (n : Nat) (h : softmax_grad r st off a_bp g_bp n = .ok st') :
    st'.m_mm_a_dfx = st.m_mm_a_dfx ∧ st'.m_mm_g_dfx = st.m_mm_g_dfx
      ∧ st'.m_mm_z_dfx.length = st.m_mm_z_dfx.length
      ∧ (∀ i, i < n → off + i < st.m_mm_a_dfx.length ∧ off + i < st.m_mm_g_dfx.length
          ∧ off + i < st.m_mm_z_dfx.length)
      ∧ ∀ j, (j < off ∨ off + n ≤ j) → st'.m_mm_z_dfx[j]? = st.m_mm_z_dfx[j]? := by
  unfold softmax_grad at h
  obtain ⟨s, -, h⟩ := bind_eq_ok _ _ _ h
  obtain ⟨res, hres, h⟩ := bind_eq_ok _ _ _ h
  have h' := Except.ok.inj h
  subst h'
  exact softmax_grad_loop2_frame r off g_bp _ (s, st) n res hres

theorem foldlM_range_congr {α : Type} (f f' : α → Nat → Except Err α) (init : α) (n : Nat)
    (h : ∀ i, i < n → ∀ s, f s i = f' s i) :
    (List.range n).foldlM f init = (List.range n).foldlM f' init := by
  induction n with
  | zero => rfl
  | succ n ih =>
    rw [foldlM_range_succ, foldlM_range_succ, ih (fun i hi => h i (by omega))]
    congr 1
    funext s
    exact h n (by omega) s

theorem softmax_grad_acc_congr (r : RoundMode) (st1 st2 : WaveSoftmaxGradDfxOp) (off : Nat)
    (a_bp g_bp : fxbp) (n : Nat)
    (h : ∀ i, i < n → st1.m_mm_a_dfx[off + i]? = st2.m_mm_a_dfx[off + i]?
      ∧ st1.m_mm_g_dfx[off + i]? = st2.m_mm_g_dfx[off + i]?) :
    softmax_grad_acc r st1 off a_bp g_bp n = softmax_grad_acc r st2 off a_bp g_bp n := by
  unfold softmax_grad_acc
  apply foldlM_range_congr
  intro i hi s
  simp only [rd, (h i hi).1, (h i hi).2]

theorem getD_congr (v w : DFXVector) (j : Nat) (h : v[j]? = w[j]?) :
    v.getD j default = w.getD j default := by
  simp [List.getD, h]

theorem softmax_grad_row_congr (r : RoundMode) (st1 st2 st1' st2' : WaveSoftmaxGradDfxOp)
    (off : Nat) (a_bp g_bp : fxbp) (n : Nat)
    (h : ∀ i, i < n → st1.m_mm_a_dfx[off + i]? = st2.m_mm_a_dfx[off + i]?
      ∧ st1.m_mm_g_dfx[off + i]? = st2.m_mm_g_dfx[off + i]?)
    (h1 : softmax_grad r st1 off a_bp g_bp n = .ok st1')
    (h2 : softmax_grad r st2 off a_bp g_bp n = .ok st2') :
    ∀ i, i < n → st1'.m_mm_z_dfx[off + i]? = st2'.m_mm_z_dfx[off + i]? := by
  intro i hi
  obtain ⟨-, -, -, hb1, -⟩ := softmax_grad_frame r st1 st1' off a_bp g_bp n h1
  obtain ⟨-, -, -, hb2, -⟩ := softmax_grad_frame r st2 st2' off a_bp g_bp n h2
  have hn : 0 < n := by omega
  have e1 := hb1 (n - 1) (by omega)
  have e2 := hb2 (n - 1) (by omega)
  obtain ⟨a1, g1, z1⟩ := st1
  obtain ⟨a2, g2, z2⟩ := st2
  simp only at e1 e2 h
  obtain ⟨s1, z1', hacc1, hcall1, -, -, hin1⟩ :=
    softmax_grad_spec r off a_bp g_bp a1 g1 z1 n (by omega) (by omega) (by omega)
  obtain ⟨s2, z2', hacc2, hcall2, -, -, hin2⟩ :=
    softmax_grad_spec r off a_bp g_bp a2 g2 z2 n (by omega) (by omega) (by omega)
  rw [hcall1] at h1
  rw [hcall2] at h2
  have e1' := Except.ok.inj h1
  have e2' := Except.ok.inj h2
  subst e1' e2'
  have hs : s1 = s2 := by
    have := softmax_grad_acc_congr r ⟨a1, g1, z1⟩ ⟨a2, g2, z2⟩ off a_bp g_bp n h
    rw [hacc1, hacc2] at this
    exact Except.ok.inj this
  subst hs
  show z1'[off + i]? = z2'[off + i]?
  rw [hin1 i hi, hin2 i hi, getD_congr a1 a2 _ (h i hi).1, getD_congr g1 g2 _ (h i hi).2]

theorem partial_in_length (r : RoundMode) (bp : fxbp) (l : List ℚ) :
    (partial_in r bp l).length = l.length := by
  simp [partial_in]

theorem resize_length (v : DFXVector) (n : Nat) : (resize v n).length = n := by
  simp [resize]
  omega

theorem softmax_grad_elem_fmt (r : RoundMode) (a_bp g_bp : fxbp) (t ai gi : DynFxPoint) :
    (softmax_grad_elem r a_bp g_bp t ai gi).m_fxbp = g_bp := rfl

theorem Compute_fixed_spec (r : RoundMode) (get_fxbp : Bool → Nat → fxbp) (n k : Nat)
    (self : WaveSoftmaxGradDfxOp) (a_m g_m : List ℚ) (hn : 0 < n)
    (ha : a_m.length = k * n) (hg : g_m.length = k * n) :
    ∃ z', Compute_fixed r get_fxbp n self a_m g_m
        = .ok ⟨partial_in r (Compute_a_bp get_fxbp) a_m, partial_in r (get_fxbp true 1) g_m, z'⟩
      ∧ z'.length = k * n
      ∧ ∀ row, row < k → ∀ i, i < n →
          ∃ s, softmax_grad_acc r
              ⟨partial_in r (Compute_a_bp get_fxbp) a_m, partial_in r (get_fxbp true 1) g_m, []⟩
              (row * n) (Compute_a_bp get_fxbp) (get_fxbp true 1) n = .ok s
            ∧ z'[row * n + i]? = some (softmax_grad_elem r (Compute_a_bp get_fxbp)
                (get_fxbp true 1) (softmax_grad_t r (get_fxbp true 1) s)
                ((partial_in r (Compute_a_bp get_fxbp) a_m).getD (row * n + i) default)
                ((partial_in r (get_fxbp true 1) g_m).getD (row * n + i) default)) := by
  have hkn : k ≤ k * n := Nat.le_mul_of_pos_right k hn
  obtain ⟨z', h, hl, -, hin⟩ := Compute_rows_spec r (Compute_a_bp get_fxbp) (get_fxbp true 1)
    n k hn (partial_in r (Compute_a_bp get_fxbp) a_m) (partial_in r (get_fxbp true 1) g_m)
    (by rw [partial_in_length, ha]) (by rw [partial_in_length, hg]) k 0
    (resize self.m_mm_z_dfx a_m.length) (a_m.length + 1) (by omega)
    (by rw [resize_length, ha]) (by omega)
  refine ⟨z', ?_, by rw [hl, resize_length, ha],
    fun row hrow i hi => hin row (by omega) hrow i hi⟩
  unfold Compute_fixed
  simp only [ha]
  rw [ha, Nat.zero_mul] at h
  exact h

theorem Compute_eq_map (r : RoundMode) (get_fxbp : Bool → Nat → fxbp) (n : Nat)
    (self : WaveSoftmaxGradDfxOp) (a_m g_m : List ℚ) (st : WaveSoftmaxGradDfxOp)
    (h : Compute_fixed r get_fxbp n self a_m g_m = .ok st) :
    Compute r get_fxbp n self a_m g_m
      = .ok (if (get_fxbp false 0).unconfigured then convert_output st.m_mm_z_dfx
          else partial_out r (get_fxbp false 0) st.m_mm_z_dfx) := by
  unfold Compute
  rw [h]
  simp only [bind, Except.bind, fxbp.unconfigured]
  split <;> rfl

theorem partial_in_getElem? (r : RoundMode) (bp : fxbp) (l l' : List ℚ) (j : Nat)
    (h : l[j]? = l'[j]?) : (partial_in r bp l)[j]? = (partial_in r bp l')[j]? := by
  simp [partial_in, List.getElem?_map, h]

/-- C1: `softmax_grad` gives the accumulator `s` the format with `a_bp.m_bp + g_bp.m_bp`
fractional bits and width 32 and sets it to 0, then adds `a[i] * g[i]` for `i = 0 .. n-1` in
index order (the loop over `m + 1` elements is the loop over `m` elements followed by
`s += a[m] * g[m]`); when the row elements carry the formats `a_bp`, `g_bp` and no partial
sum of the mantissa products leaves the signed 32-bit range, the mantissa of `s` after the
loop is exactly the sum of the mantissa products, `t` is that `s` rescaled into `g`'s
format, and it is this `s` and this `t` that the second loop of `softmax_grad` runs with. -/
theorem C1_accumulator_is_exact_dot_product (r : RoundMode) (self : WaveSoftmaxGradDfxOp)
    (off : Nat) (a_bp g_bp : fxbp) (n : Nat)
    (ha : off + n ≤ self.m_mm_a_dfx.length) (hg : off + n ≤ self.m_mm_g_dfx.length)
    (hfa : ∀ i, i < n → (self.m_mm_a_dfx.getD (off + i) default).m_fxbp.m_bp = a_bp.m_bp)
    (hfg : ∀ i, i < n → (self.m_mm_g_dfx.getD (off + i) default).m_fxbp.m_bp = g_bp.m_bp)
    (hrange : ∀ k, k ≤ n →
      in_acc_range (mantissa_dot self.m_mm_a_dfx self.m_mm_g_dfx off k)) :
    softmax_grad_init r a_bp g_bp = ⟨0, ⟨a_bp.m_bp + g_bp.m_bp, 32, true⟩⟩
    ∧ softmax_grad_acc r self off a_bp g_bp 0 = .ok (softmax_grad_init r a_bp g_bp)
    ∧ (∀ m, softmax_grad_acc r self off a_bp g_bp (m + 1)
        = softmax_grad_acc r self off a_bp g_bp m >>= fun s => do
            let ai ← rd self.m_mm_a_dfx (off + m)
            let gi ← rd self.m_mm_g_dfx (off + m)
            pure (s.addAssign r (ai.mul gi)))
    ∧ softmax_grad_acc r self off a_bp g_bp n
        = .ok ⟨mantissa_dot self.m_mm_a_dfx self.m_mm_g_dfx off n,
            ⟨a_bp.m_bp + g_bp.m_bp, 32, true⟩⟩
    ∧ softmax_grad_t r g_bp ⟨mantissa_dot self.m_mm_a_dfx self.m_mm_g_dfx off n,
          ⟨a_bp.m_bp + g_bp.m_bp, 32, true⟩⟩
        = ⟨sat g_bp.m_wl (rescale r (mantissa_dot self.m_mm_a_dfx self.m_mm_g_dfx off n)
            (a_bp.m_bp + g_bp.m_bp) g_bp.m_bp), g_bp⟩
    ∧ softmax_grad r self off a_bp g_bp n
        = ((List.range n).foldlM (softmax_grad_step r off g_bp
            ⟨sat g_bp.m_wl (rescale r (mantissa_dot self.m_mm_a_dfx self.m_mm_g_dfx off n)
              (a_bp.m_bp + g_bp.m_bp) g_bp.m_bp), g_bp⟩)
            (⟨mantissa_dot self.m_mm_a_dfx self.m_mm_g_dfx off n,
              ⟨a_bp.m_bp + g_bp.m_bp, 32, true⟩⟩, self)).map Prod.snd := by
  have hacc := softmax_grad_acc_exact r self off a_bp g_bp n ha hg
    (fun i hi => by rw [hfa i hi, hfg i hi]) hrange
  have ht : softmax_grad_t r g_bp ⟨mantissa_dot self.m_mm_a_dfx self.m_mm_g_dfx off n,
      ⟨a_bp.m_bp + g_bp.m_bp, 32, true⟩⟩
        = ⟨sat g_bp.m_wl (rescale r (mantissa_dot self.m_mm_a_dfx self.m_mm_g_dfx off n)
            (a_bp.m_bp + g_bp.m_bp) g_bp.m_bp), g_bp⟩ := by
    simp [softmax_grad_t, DynFxPoint.assign, DynFxPoint.set_fxbp]
  refine ⟨softmax_grad_init_eq r a_bp g_bp, rfl,
    fun m => foldlM_range_succ _ _ m, hacc, ht, ?_⟩
  rw [← ht]
  exact softmax_grad_eq_map r self off a_bp g_bp n _ hacc

/-- Witness of C1: a row of two elements, `a` with 14 fractional bits, `g` with 12. -/
theorem C1_accumulator_is_exact_dot_product_witness :
    softmax_grad_acc .halfEven
        ⟨[⟨4096, fxbp.mk2 14 16⟩, ⟨12288, fxbp.mk2 14 16⟩],
          [⟨-4096, fxbp.mk2 12 16⟩, ⟨6000, fxbp.mk2 12 16⟩], [default, default]⟩
        0 (fxbp.mk2 14 16) (fxbp.mk2 12 16) 2
      = .ok ⟨4096 * -4096 + 12288 * 6000, ⟨26, 32, true⟩⟩ :=
  (C1_accumulator_is_exact_dot_product .halfEven
    ⟨[⟨4096, fxbp.mk2 14 16⟩, ⟨12288, fxbp.mk2 14 16⟩],
      [⟨-4096, fxbp.mk2 12 16⟩, ⟨6000, fxbp.mk2 12 16⟩], [default, default]⟩
    0 (fxbp.mk2 14 16) (fxbp.mk2 12 16) 2 (by decide) (by decide) (by decide) (by decide)
    (by decide)).2.2.2.1

/-- C2, as stated, fails: on the row `a = [5/8, 1/8]`, `g = [1, -13]` the accumulated sum
is `-8/8`, `t = -1`, and `softmax_grad` stores `z[0] = 1` (the difference `10/8` rounded
once), while rescaling each product into `g`'s format before subtracting gives
`1 - (-1) = 2`; this holds for both tie-break rules. -/
theorem C2_rescale_before_subtract_fails :
    (softmax_grad_acc .halfAway ex_c2 0 (fxbp.mk2 3 16) (fxbp.mk2 0 16) 2
        = .ok ⟨-8, fxbp.mk2 3 32⟩
      ∧ softmax_grad .halfAway ex_c2 0 (fxbp.mk2 3 16) (fxbp.mk2 0 16) 2
        = .ok ⟨ex_c2.m_mm_a_dfx, ex_c2.m_mm_g_dfx,
            [⟨1, fxbp.mk2 0 16⟩, ⟨-2, fxbp.mk2 0 16⟩]⟩
      ∧ spec_rescale_then_subtract .halfAway (fxbp.mk2 0 16)
          (softmax_grad_t .halfAway (fxbp.mk2 0 16) ⟨-8, fxbp.mk2 3 32⟩)
          ⟨5, fxbp.mk2 3 16⟩ ⟨1, fxbp.mk2 0 16⟩ = 2)
    ∧ (softmax_grad_acc .halfEven ex_c2 0 (fxbp.mk2 3 16) (fxbp.mk2 0 16) 2
        = .ok ⟨-8, fxbp.mk2 3 32⟩
      ∧ softmax_grad .halfEven ex_c2 0 (fxbp.mk2 3 16) (fxbp.mk2 0 16) 2
        = .ok ⟨ex_c2.m_mm_a_dfx, ex_c2.m_mm_g_dfx,
            [⟨1, fxbp.mk2 0 16⟩, ⟨-2, fxbp.mk2 0 16⟩]⟩
      ∧ spec_rescale_then_subtract .halfEven (fxbp.mk2 0 16)
          (softmax_grad_t .halfEven (fxbp.mk2 0 16) ⟨-8, fxbp.mk2 3 32⟩)
          ⟨5, fxbp.mk2 3 16⟩ ⟨1, fxbp.mk2 0 16⟩ = 2) := by
  decide

/-- C2, amended: for a row whose elements carry the formats `a_bp`, `g_bp`, `softmax_grad`
returns and stores in every `z[i]`, `i < n`, the value
`sat32 (sat32 (g[i] * a[i]) - t * a[i])` rescaled once into `g`'s format: the two products
are held at the accumulator's format (`a_bp.m_bp + g_bp.m_bp` fractional bits, 32 bits),
the subtraction is made there, and only the difference is rescaled into `g`'s format. -/
theorem C2_subtract_then_rescale (r : RoundMode) (off : Nat) (a_bp g_bp : fxbp)
    (a g z : DFXVector) (n : Nat) (s : DynFxPoint)
    (hs : softmax_grad_acc r ⟨a, g, z⟩ off a_bp g_bp n = .ok s)
    (ha : off + n ≤ a.length) (hg : off + n ≤ g.length) (hz : off + n ≤ z.length)
    (hfa : ∀ i, i < n → (a.getD (off + i) default).m_fxbp.m_bp = a_bp.m_bp)
    (hfg : ∀ i, i < n → (g.getD (off + i) default).m_fxbp.m_bp = g_bp.m_bp) :
    ∃ z', softmax_grad r ⟨a, g, z⟩ off a_bp g_bp n = .ok ⟨a, g, z'⟩
      ∧ ∀ i, i < n → z'[off + i]? = some
          ⟨sat g_bp.m_wl (rescale r
            (sat 32 (sat 32 ((g.getD (off + i) default).m_v * (a.getD (off + i) default).m_v)
              - (softmax_grad_t r g_bp s).m_v * (a.getD (off + i) default).m_v))
            (a_bp.m_bp + g_bp.m_bp) g_bp.m_bp), g_bp⟩ := by
  obtain ⟨s1, z', hacc, hcall, -, -, hin⟩ := softmax_grad_spec r off a_bp g_bp a g z n ha hg hz
  have hss : s1 = s := by
    rw [hacc] at hs
    exact Except.ok.inj hs
  subst hss
  refine ⟨z', hcall, fun i hi => ?_⟩
  rw [hin i hi, softmax_grad_elem_eq r a_bp g_bp _ _ _ rfl (hfa i hi) (hfg i hi)]

/-- Witness of the amended C2 on the example row. -/
theorem C2_subtract_then_rescale_witness :
    ∃ z', softmax_grad .halfEven ex_c2 0 (fxbp.mk2 3 16) (fxbp.mk2 0 16) 2
        = .ok ⟨ex_c2.m_mm_a_dfx, ex_c2.m_mm_g_dfx, z'⟩
      ∧ ∀ i, i < 2 → z'[0 + i]? = some
          ⟨sat 16 (rescale .halfEven
            (sat 32 (sat 32 ((ex_c2.m_mm_g_dfx.getD (0 + i) default).m_v
                * (ex_c2.m_mm_a_dfx.getD (0 + i) default).m_v)
              - (softmax_grad_t .halfEven (fxbp.mk2 0 16) ⟨-8, fxbp.mk2 3 32⟩).m_v
                * (ex_c2.m_mm_a_dfx.getD (0 + i) default).m_v))
            (3 + 0) 0), fxbp.mk2 0 16⟩ :=
  C2_subtract_then_rescale .halfEven 0 (fxbp.mk2 3 16) (fxbp.mk2 0 16) ex_c2.m_mm_a_dfx
    ex_c2.m_mm_g_dfx ex_c2.m_mm_z_dfx 2 ⟨-8, fxbp.mk2 3 32⟩ (by decide) (by decide)
    (by decide) (by decide) (by decide) (by decide)

/-- C4, as stated, fails: with both inputs at 14 fractional bits in 16 bits and the output
at `g`'s format, the entries 2.0 and 3.0 of `g` saturate to `32767 / 2^14`, the accumulated
sum is `469749760 / 2^28`, not 2.0, and the output is `[-3/16, 1/16, 1/8]`, each entry at
least `1/16` (1024 units of `2^-14`) away from `[-1/4, 0, 1/2]`; both tie-break rules. -/
theorem C4_example_row_is_not_reproduced :
    (softmax_grad_acc .halfAway
        ⟨partial_in .halfAway (fxbp.mk2 14 16) [1 / 4, 1 / 4, 1 / 2],
          partial_in .halfAway (fxbp.mk2 14 16) [1, 2, 3], []⟩ 0
        (fxbp.mk2 14 16) (fxbp.mk2 14 16) 3 = .ok ⟨469749760, ⟨28, 32, true⟩⟩
      ∧ DynFxPoint.to_fp ⟨469749760, ⟨28, 32, true⟩⟩ ≠ 2
      ∧ Compute .halfAway ex_cfg_14_16 3 ex_fresh [1 / 4, 1 / 4, 1 / 2] [1, 2, 3]
        = .ok [-3 / 16, 1 / 16, 1 / 8])
    ∧ (softmax_grad_acc .halfEven
        ⟨partial_in .halfEven (fxbp.mk2 14 16) [1 / 4, 1 / 4, 1 / 2],
          partial_in .halfEven (fxbp.mk2 14 16) [1, 2, 3], []⟩ 0
        (fxbp.mk2 14 16) (fxbp.mk2 14 16) 3 = .ok ⟨469749760, ⟨28, 32, true⟩⟩
      ∧ Compute .halfEven ex_cfg_14_16 3 ex_fresh [1 / 4, 1 / 4, 1 / 2] [1, 2, 3]
        = .ok [-3 / 16, 1 / 16, 1 / 8])
    ∧ (1 / 16 : ℚ) ≤ |(-3 / 16) - (-1 / 4)| ∧ (1 / 16 : ℚ) ≤ |(1 / 16) - 0|
    ∧ (1 / 16 : ℚ) ≤ |(1 / 8) - (1 / 2)| := by
  refine ⟨by decide!, by decide!, ?_, ?_, ?_⟩ <;> norm_num [abs_le, le_abs]

/-- C4, amended: for the row `a = [0.25, 0.25, 0.5]`, `g = [1.0, 2.0, 3.0]`, `n = 3`, the
output taken at `g`'s format.  With both inputs at 14 fractional bits in 16 bits `g` is
converted to the mantissas `[16384, 32767, 32767]` (2.0 and 3.0 saturate), the accumulated
sum is `469749760 / 2^28` and the output is exactly `[-3/16, 1/16, 1/8]`.  With `g` at 14
fractional bits in 32 bits nothing saturates, the accumulated sum is `603979776 / 2^28 =
2.25` and the output is exactly `[-5/16, -1/16, 3/8]`, that is `a_i * (g_i - 2.25)`.  Both
tie-break rules. -/
theorem C4_example_row_values :
    (partial_in .halfAway (fxbp.mk2 14 16) [1, 2, 3]
        = [⟨16384, ⟨14, 16, true⟩⟩, ⟨32767, ⟨14, 16, true⟩⟩, ⟨32767, ⟨14, 16, true⟩⟩]
      ∧ Compute_fixed .halfAway ex_cfg_14_16 3 ex_fresh [1 / 4, 1 / 4, 1 / 2] [1, 2, 3]
        = Compute_fixed .halfEven ex_cfg_14_16 3 ex_fresh [1 / 4, 1 / 4, 1 / 2] [1, 2, 3]
      ∧ Compute .halfEven ex_cfg_14_16 3 ex_fresh [1 / 4, 1 / 4, 1 / 2] [1, 2, 3]
        = .ok [-3 / 16, 1 / 16, 1 / 8]
      ∧ Compute .halfAway ex_cfg_14_16 3 ex_fresh [1 / 4, 1 / 4, 1 / 2] [1, 2, 3]
        = .ok [-3 / 16, 1 / 16, 1 / 8])
    ∧ (softmax_grad_acc .halfAway
        ⟨partial_in .halfAway (fxbp.mk2 14 16) [1 / 4, 1 / 4, 1 / 2],
          partial_in .halfAway (fxbp.mk2 14 32) [1, 2, 3], []⟩ 0
        (fxbp.mk2 14 16) (fxbp.mk2 14 32) 3 = .ok ⟨603979776, ⟨28, 32, true⟩⟩
      ∧ DynFxPoint.to_fp ⟨603979776, ⟨28, 32, true⟩⟩ = 9 / 4
      ∧ Compute .halfAway ex_cfg_g32 3 ex_fresh [1 / 4, 1 / 4, 1 / 2] [1, 2, 3]
        = .ok [1 / 4 * (1 - 9 / 4), 1 / 4 * (2 - 9 / 4), 1 / 2 * (3 - 9 / 4)]
      ∧ Compute .halfEven ex_cfg_g32 3 ex_fresh [1 / 4, 1 / 4, 1 / 2] [1, 2, 3]
        = .ok [-5 / 16, -1 / 16, 3 / 8]) := by
  decide!

/-- C7: the format `a_bp` of the first input is the descriptor of slot 0 when that
descriptor is initialized and its `m_bp` is not -1, and otherwise the default format with
14 fractional bits in 16 bits; the same `a_bp` is the format of every element produced by
`partial_in` for `a` and the one handed to the row loop, hence to every `softmax_grad`
call. -/
theorem C7_first_input_format (get_fxbp : Bool → Nat → fxbp) :
    Compute_a_bp get_fxbp
        = (if (get_fxbp true 0).m_initialized = true ∧ (get_fxbp true 0).m_bp ≠ -1
            then get_fxbp true 0 else ⟨14, 16, true⟩)
    ∧ (∀ (r : RoundMode) (n : Nat) (self : WaveSoftmaxGradDfxOp) (a_m g_m : List ℚ),
        Compute_fixed r get_fxbp n self a_m g_m
          = Compute_rows r (Compute_a_bp get_fxbp) (get_fxbp true 1) n a_m.length
              (a_m.length + 1) 0
              ⟨partial_in r (Compute_a_bp get_fxbp) a_m, partial_in r (get_fxbp true 1) g_m,
                resize self.m_mm_z_dfx a_m.length⟩)
    ∧ (∀ (r : RoundMode) (a_m : List ℚ) (x : DynFxPoint),
        x ∈ partial_in r (Compute_a_bp get_fxbp) a_m → x.m_fxbp = Compute_a_bp get_fxbp)
    ∧ (∀ (r : RoundMode) (g_bp : fxbp) (n size fuel i : Nat) (self : WaveSoftmaxGradDfxOp),
        i < size →
        Compute_rows r (Compute_a_bp get_fxbp) g_bp n size (fuel + 1) i self
          = softmax_grad r self i (Compute_a_bp get_fxbp) g_bp n >>=
              Compute_rows r (Compute_a_bp get_fxbp) g_bp n size fuel (i + n)) := by
  refine ⟨?_, fun _ _ _ _ _ => rfl, ?_, ?_⟩
  · unfold Compute_a_bp
    by_cases h1 : (get_fxbp true 0).m_bp = -1 <;>
      by_cases h2 : (get_fxbp true 0).m_initialized = true <;> simp [h1, h2, fxbp.mk2]
  · intro r a_m x hx
    simp only [partial_in, List.mem_map] at hx
    obtain ⟨v, -, rfl⟩ := hx
    rfl
  · intro r g_bp n size fuel i self hi
    simp [Compute_rows, hi]

/-- Witness of C7: an unconfigured slot 0 gives the default format, a configured one is
kept. -/
theorem C7_first_input_format_witness :
    Compute_a_bp ex_cfg_none = ⟨14, 16, true⟩ ∧ Compute_a_bp ex_cfg_a12 = ⟨12, 16, true⟩ :=
  ⟨(C7_first_input_format ex_cfg_none).1.trans (by decide),
    (C7_first_input_format ex_cfg_a12).1.trans (by decide)⟩

/-- C8: rows do not interact.  Two runs of `Compute` with the same formats and the same
`n ≥ 1`, on inputs of `k1 * n` and `k2 * n` elements that agree on row `row` (indices
`row * n .. row * n + n - 1`), both return and their outputs agree on row `row`, whatever
the other rows and the previous contents of the kernel object are.  A returning call of
`softmax_grad` leaves `a` and `g` unchanged and changes no element of `z` outside
`off .. off + n - 1`; two returning calls on kernel objects whose `a` and `g` agree on the
row write the same values into the row of `z`. -/
theorem C8_rows_do_not_interact (r : RoundMode) (get_fxbp : Bool → Nat → fxbp)
    (n k1 k2 row : Nat) (self1 self2 : WaveSoftmaxGradDfxOp) (a1 g1 a2 g2 : List ℚ)
    (hn : 0 < n) (hk1 : row < k1) (hk2 : row < k2)
    (ha1 : a1.length = k1 * n) (hg1 : g1.length = k1 * n)
    (ha2 : a2.length = k2 * n) (hg2 : g2.length = k2 * n)
    (hagree : ∀ i, i < n → a1[row * n + i]? = a2[row * n + i]?
      ∧ g1[row * n + i]? = g2[row * n + i]?) :
    (∃ out1 out2, Compute r get_fxbp n self1 a1 g1 = .ok out1
      ∧ Compute r get_fxbp n self2 a2 g2 = .ok out2
      ∧ ∀ i, i < n → out1[row * n + i]? = out2[row * n + i]?)
    ∧ (∀ (st st' : WaveSoftmaxGradDfxOp) (off : Nat) (a_bp g_bp : fxbp),
        softmax_grad r st off a_bp g_bp n = .ok st' →
        st'.m_mm_a_dfx = st.m_mm_a_dfx ∧ st'.m_mm_g_dfx = st.m_mm_g_dfx
          ∧ ∀ j, (j < off ∨ off + n ≤ j) → st'.m_mm_z_dfx[j]? = st.m_mm_z_dfx[j]?)
    ∧ (∀ (st1 st2 st1' st2' : WaveSoftmaxGradDfxOp) (off : Nat) (a_bp g_bp : fxbp),
        (∀ i, i < n → st1.m_mm_a_dfx[off + i]? = st2.m_mm_a_dfx[off + i]?
          ∧ st1.m_mm_g_dfx[off + i]? = st2.m_mm_g_dfx[off + i]?) →
        softmax_grad r st1 off a_bp g_bp n = .ok st1' →
        softmax_grad r st2 off a_bp g_bp n = .ok st2' →
        ∀ i, i < n → st1'.m_mm_z_dfx[off + i]? = st2'.m_mm_z_dfx[off + i]?) := by
  refine ⟨?_, ?_, ?_⟩
  · obtain ⟨z1, hfix1, hl1, hin1⟩ := Compute_fixed_spec r get_fxbp n k1 self1 a1 g1 hn ha1 hg1
    obtain ⟨z2, hfix2, hl2, hin2⟩ := Compute_fixed_spec r get_fxbp n k2 self2 a2 g2 hn ha2 hg2
    have hz : ∀ i, i < n → z1[row * n + i]? = z2[row * n + i]? := by
      intro i hi
      obtain ⟨s1, hacc1, hz1⟩ := hin1 row hk1 i hi
      obtain ⟨s2, hacc2, hz2⟩ := hin2 row hk2 i hi
      have hc := softmax_grad_acc_congr r
        ⟨partial_in r (Compute_a_bp get_fxbp) a1, partial_in r (get_fxbp true 1) g1, []⟩
        ⟨partial_in r (Compute_a_bp get_fxbp) a2, partial_in r (get_fxbp true 1) g2, []⟩
        (row * n) (Compute_a_bp get_fxbp) (get_fxbp true 1) n
        (fun i hi => ⟨partial_in_getElem? r _ a1 a2 _ (hagree i hi).1,
          partial_in_getElem? r _ g1 g2 _ (hagree i hi).2⟩)
      rw [hacc1, hacc2] at hc
      have hs := Except.ok.inj hc
      subst hs
      rw [hz1, hz2, getD_congr _ _ _ (partial_in_getElem? r _ a1 a2 _ (hagree i hi).1),
        getD_congr _ _ _ (partial_in_getElem? r _ g1 g2 _ (hagree i hi).2)]
    refine ⟨_, _, Compute_eq_map r get_fxbp n self1 a1 g1 _ hfix1,
      Compute_eq_map r get_fxbp n self2 a2 g2 _ hfix2, ?_⟩
    intro i hi
    show (if (get_fxbp false 0).unconfigured then convert_output z1
        else partial_out r (get_fxbp false 0) z1)[row * n + i]?
      = (if (get_fxbp false 0).unconfigured then convert_output z2
        else partial_out r (get_fxbp false 0) z2)[row * n + i]?
    split
    · simp only [convert_output, List.getElem?_map, hz i hi]
    · simp only [partial_out, List.getElem?_map, hz i hi]
  · intro st st' off a_bp g_bp h
    obtain ⟨h1, h2, -, -, h5⟩ := softmax_grad_frame r st st' off a_bp g_bp n h
    exact ⟨h1, h2, h5⟩
  · intro st1 st2 st1' st2' off a_bp g_bp h h1 h2
    exact softmax_grad_row_congr r st1 st2 st1' st2' off a_bp g_bp n h h1 h2

/-- Witness of C8: two runs with two rows of two elements that agree on row 1 only. -/
theorem C8_rows_do_not_interact_witness :
    ∃ out1 out2,
      Compute .halfEven ex_cfg_14_16 2 ex_fresh [1 / 4, 3 / 4, 1 / 2, 1 / 2] [1, -1, 1 / 2, 1]
        = .ok out1
      ∧ Compute .halfEven ex_cfg_14_16 2 ex_c2 [1, 0, 1 / 2, 1 / 2, 1 / 8, 7 / 8]
          [-1 / 2, 1 / 4, 1 / 2, 1, 0, 0] = .ok out2
      ∧ ∀ i, i < 2 → out1[1 * 2 + i]? = out2[1 * 2 + i]? :=
  (C8_rows_do_not_interact .halfEven ex_cfg_14_16 2 2 3 1 ex_fresh ex_c2
    [1 / 4, 3 / 4, 1 / 2, 1 / 2] [1, -1, 1 / 2, 1] [1, 0, 1 / 2, 1 / 2, 1 / 8, 7 / 8]
    [-1 / 2, 1 / 4, 1 / 2, 1, 0, 0] (by decide) (by decide) (by decide) (by decide)
    (by decide) (by decide) (by decide) (by decide!)).1

end WaveFlow
